import Mathlib

/-!
Shallow embedding of the PlayAxis playback controller (mprozil/PlayAxis).

The repository contains two near-duplicate variants of the visual:
`src/playAxis.ts` (the basic variant, namespace `Basic` below) and a second
file (the extended variant, namespace `Extended` below) that adds the
`autoStart` and `loop` transition settings and a terminal timer.

The embedding models the playback controller: the `Status` enum, the
`lastSelected` cursor, the view model (data points plus the
controller-relevant settings), and the set of pending `setTimeout` timers.
Each pending timer is modelled by the data its callback closure captures
(its fixed loop index, or the terminal marker) together with its scheduled
delay in milliseconds.  SVG/DOM rendering, colors and fonts are
presentational and are not part of the embedding; the observable behaviour
of the controller is the list of emitted events (cross-filter selection,
selection clearing, caption updates).

JavaScript indexing of `dataPoints` can fail at runtime (reading
`undefined.selectionId` throws), so callback execution is embedded as an
`Option`-valued function: `none` models a thrown `TypeError`.
-/

/-- A data point of the view model: a category label and the opaque
selection id used for cross filtering.  The id is opaque to the
controller, so it is modelled by a natural number. -/
structure CategoryDataPoint where
  category : String
  selectionId : Nat
deriving DecidableEq

/-- The `Status` enum of both variants: `enum Status \x7bPlay, Pause, Stop\x7d`. -/
inductive Status where
  | Play
  | Pause
  | Stop
deriving DecidableEq

/-- Observable events emitted by the controller to the host:
`selectionManager.select(id)`, `selectionManager.clear()`, and writing a
caption text to the label element. -/
inductive Event where
  | select (id : Nat)
  | clearSelection
  | caption (text : String)
deriving DecidableEq

namespace Basic

/-- Controller-relevant projection of the basic variant's `VisualSettings`:
`transitionSettings.timeInterval` and `captionSettings.show`.  The color
and font-size fields are presentational and omitted. -/
structure VisualSettings where
  timeInterval : Int
  captionShow : Bool
deriving DecidableEq

/-- The view model produced by `visualTransform`: the data points and the
settings. -/
structure ViewModel where
  dataPoints : List CategoryDataPoint
  settings : VisualSettings
deriving DecidableEq

/-- A pending timer of the basic variant.  Every timer scheduled by
`playAnimation` is an advance timer whose callback closure captures its
fixed loop index `idx`; `delay` is the `setTimeout` delay in
milliseconds. -/
structure Timer where
  delay : Int
  idx : Nat
deriving DecidableEq

/-- The controller state of the basic `Visual` class: the `status` field,
the `lastSelected` cursor, the current view model (the class keeps
`visualSettings` and `visualDataPoints` as synced copies of
`viewModel.settings` and `viewModel.dataPoints`, so a single field
suffices), and the list of pending timers.  The source keeps an array of
raw timer handles that is never pruned; since `clearTimeout` on an
already-fired or already-cleared handle is a no-op, clearing that array's
handles cancels exactly the pending timers, which is what `timers`
models. -/
structure Visual where
  status : Status
  lastSelected : Nat
  viewModel : ViewModel
  timers : List Timer
deriving DecidableEq

/-- `updateCaption`: emits the caption text only when
`captionSettings.show` is set. -/
def updateCaption (s : Visual) (caption : String) : List Event :=
  if s.viewModel.settings.captionShow then [Event.caption caption] else []

/-- `playAnimation` of the basic variant.  No-op when already playing;
otherwise schedules one advance timer per index `i` from `startingIndex`
to `dataPoints.length - 1` with delay `(i - lastSelected) * timeInterval`
(the for loop over those indices is `List.range' startingIndex (length -
startingIndex)`), then sets the status to `Play`. -/
def playAnimation (s : Visual) : Visual :=
  if s.status = Status.Play then s
  else
    let timeInterval := s.viewModel.settings.timeInterval
    let startingIndex := if s.status = Status.Stop then 0 else s.lastSelected + 1
    let newTimers :=
      (List.range' startingIndex (s.viewModel.dataPoints.length - startingIndex)).map
        (fun (i : Nat) => Timer.mk (((i : Int) - (s.lastSelected : Int)) * timeInterval) i)
    { s with timers := s.timers ++ newTimers, status := Status.Play }

/-- The callback body of an advance timer with captured index `i`: select
`dataPoints[i].selectionId`, set `lastSelected = i`, update the caption to
`dataPoints[i].category`.  `none` models the `TypeError` thrown when
`dataPoints[i]` is `undefined`. -/
def fireTimer (s : Visual) (i : Nat) : Option (Visual × List Event) :=
  match s.viewModel.dataPoints[i]? with
  | none => none
  | some dp =>
    some ({ s with lastSelected := i },
      Event.select dp.selectionId :: updateCaption s dp.category)

/-- The event loop delivering the pending timer at position `n`: the timer
is removed from the pending set and its callback body runs on the
resulting state. -/
def fireAt (s : Visual) (n : Nat) : Option (Visual × List Event) :=
  match s.timers[n]? with
  | none => none
  | some t => fireTimer { s with timers := s.timers.eraseIdx n } t.idx

/-- `stopAnimation` of the basic variant: no-op when stopped; otherwise
clears every pending timer, emits the empty caption, resets the cursor,
clears the selection and sets the status to `Stop`. -/
def stopAnimation (s : Visual) : Visual × List Event :=
  if s.status = Status.Stop then (s, [])
  else
    ({ s with timers := [], lastSelected := 0, status := Status.Stop },
      updateCaption s "" ++ [Event.clearSelection])

/-- `pauseAnimation` of the basic variant: no-op when paused or stopped;
otherwise clears every pending timer, keeps the cursor and sets the
status to `Pause`.  It emits no selection or caption events. -/
def pauseAnimation (s : Visual) : Visual × List Event :=
  if s.status = Status.Pause ∨ s.status = Status.Stop then (s, [])
  else ({ s with timers := [], status := Status.Pause }, [])

/-- The `step` method: no-op when playing or stopped; no-op when
`lastSelected + delta` falls outside `[0, dataPoints.length - 1]`;
otherwise moves the cursor by `delta`, selects and captions the new item
and sets the status to `Pause`. -/
def step (s : Visual) (delta : Int) : Option (Visual × List Event) :=
  if s.status = Status.Play ∨ s.status = Status.Stop then some (s, [])
  else if (s.lastSelected : Int) + delta < 0 ∨
      (s.lastSelected : Int) + delta > (s.viewModel.dataPoints.length : Int) - 1 then
    some (s, [])
  else
    let i := ((s.lastSelected : Int) + delta).toNat
    match s.viewModel.dataPoints[i]? with
    | none => none
    | some dp =>
      some ({ s with lastSelected := i, status := Status.Pause },
        Event.select dp.selectionId :: updateCaption s dp.category)

/-- The `update` method of the basic variant, restricted to the controller
state: installs the freshly transformed view model.  It does not touch
`status`, `lastSelected` or the pending timers. -/
def update (s : Visual) (vm : ViewModel) : Visual :=
  { s with viewModel := vm }

/-- Controller invariant maintained by the basic variant: when stopped the
cursor is reset and no timer is pending; when paused no timer is
pending. -/
def Inv (s : Visual) : Prop :=
  (s.status = Status.Stop → s.lastSelected = 0 ∧ s.timers = []) ∧
  (s.status = Status.Pause → s.timers = [])

/-- States reachable from `s0` by the controller operations: the four
button handlers, data updates and timer deliveries. -/
inductive Reach (s0 : Visual) : Visual → Prop where
  | refl : Reach s0 s0
  | play {s : Visual} : Reach s0 s → Reach s0 (playAnimation s)
  | stop {s : Visual} : Reach s0 s → Reach s0 (stopAnimation s).1
  | pause {s : Visual} : Reach s0 s → Reach s0 (pauseAnimation s).1
  | doStep {s s' : Visual} {evs : List Event} (delta : Int) :
      Reach s0 s → step s delta = some (s', evs) → Reach s0 s'
  | upd {s : Visual} (vm : ViewModel) : Reach s0 s → Reach s0 (update s vm)
  | fire {s s' : Visual} {evs : List Event} (n : Nat) :
      Reach s0 s → fireAt s n = some (s', evs) → Reach s0 s'

end Basic

namespace Extended

/-- Controller-relevant projection of the extended variant's
`VisualSettings`: `transitionSettings.autoStart`, `transitionSettings.loop`
and `transitionSettings.timeInterval`, plus `captionSettings.show`.  The
color, font-size and alignment fields are presentational and omitted. -/
structure VisualSettings where
  autoStart : Bool
  loop : Bool
  timeInterval : Int
  captionShow : Bool
deriving DecidableEq

/-- The view model produced by the extended variant's `visualTransform`. -/
structure ViewModel where
  dataPoints : List CategoryDataPoint
  settings : VisualSettings
deriving DecidableEq

/-- What a pending timer's callback closure captured in the extended
variant: either an advance callback with its fixed loop index, or the
`stopAnimationTimer` terminal callback. -/
inductive TimerKind where
  | advance (i : Nat)
  | terminal
deriving DecidableEq

/-- A pending timer of the extended variant: its `setTimeout` delay and
its callback kind. -/
structure Timer where
  delay : Int
  kind : TimerKind
deriving DecidableEq

/-- The controller state of the extended `Visual` class (same shape as the
basic one; the settings carry the extra `autoStart` and `loop` flags). -/
structure Visual where
  status : Status
  lastSelected : Nat
  viewModel : ViewModel
  timers : List Timer
deriving DecidableEq

/-- `updateCaption` of the extended variant (identical to the basic
one). -/
def updateCaption (s : Visual) (caption : String) : List Event :=
  if s.viewModel.settings.captionShow then [Event.caption caption] else []

/-- `playAnimation` of the extended variant: like the basic one, but after
the advance timers it pushes one extra `stopAnimationTimer` terminal timer
with delay `(dataPoints.length - lastSelected) * timeInterval`, then sets
the status to `Play`. -/
def playAnimation (s : Visual) : Visual :=
  if s.status = Status.Play then s
  else
    let timeInterval := s.viewModel.settings.timeInterval
    let startingIndex := if s.status = Status.Stop then 0 else s.lastSelected + 1
    let newTimers :=
      (List.range' startingIndex (s.viewModel.dataPoints.length - startingIndex)).map
        (fun (i : Nat) =>
          Timer.mk (((i : Int) - (s.lastSelected : Int)) * timeInterval) (TimerKind.advance i))
    let stopTimer :=
      Timer.mk (((s.viewModel.dataPoints.length : Int) - (s.lastSelected : Int)) * timeInterval)
        TimerKind.terminal
    { s with timers := s.timers ++ newTimers ++ [stopTimer], status := Status.Play }

/-- `stopAnimation` of the extended variant (identical body to the basic
one). -/
def stopAnimation (s : Visual) : Visual × List Event :=
  if s.status = Status.Stop then (s, [])
  else
    ({ s with timers := [], lastSelected := 0, status := Status.Stop },
      updateCaption s "" ++ [Event.clearSelection])

/-- `pauseAnimation` of the extended variant (identical body to the basic
one). -/
def pauseAnimation (s : Visual) : Visual × List Event :=
  if s.status = Status.Pause ∨ s.status = Status.Stop then (s, [])
  else ({ s with timers := [], status := Status.Pause }, [])

/-- The `step` method of the extended variant (identical body to the basic
one). -/
def step (s : Visual) (delta : Int) : Option (Visual × List Event) :=
  if s.status = Status.Play ∨ s.status = Status.Stop then some (s, [])
  else if (s.lastSelected : Int) + delta < 0 ∨
      (s.lastSelected : Int) + delta > (s.viewModel.dataPoints.length : Int) - 1 then
    some (s, [])
  else
    let i := ((s.lastSelected : Int) + delta).toNat
    match s.viewModel.dataPoints[i]? with
    | none => none
    | some dp =>
      some ({ s with lastSelected := i, status := Status.Pause },
        Event.select dp.selectionId :: updateCaption s dp.category)

/-- The callback bodies of the extended variant's timers.  An advance
callback behaves as in the basic variant.  The terminal
`stopAnimationTimer` callback checks `transitionSettings.loop` at fire
time: when set, it assigns `status = Stop` and `lastSelected = 0` and
calls `playAnimation` again; otherwise it calls `stopAnimation`. -/
def fireTimer (s : Visual) : TimerKind → Option (Visual × List Event)
  | TimerKind.advance i =>
    match s.viewModel.dataPoints[i]? with
    | none => none
    | some dp =>
      some ({ s with lastSelected := i },
        Event.select dp.selectionId :: updateCaption s dp.category)
  | TimerKind.terminal =>
    if s.viewModel.settings.loop then
      some (playAnimation { s with status := Status.Stop, lastSelected := 0 }, [])
    else
      some (stopAnimation s)

/-- The event loop delivering the pending timer at position `n` in the
extended variant. -/
def fireAt (s : Visual) (n : Nat) : Option (Visual × List Event) :=
  match s.timers[n]? with
  | none => none
  | some t => fireTimer { s with timers := s.timers.eraseIdx n } t.kind

/-- The `update` method of the extended variant, restricted to the
controller state.  `dataReady` is the result of `isDataReady(options)`:
when false the method returns at once.  Otherwise it calls
`stopAnimation`, installs the freshly transformed view model, and calls
`playAnimation` when the new `autoStart` setting is on. -/
def update (s : Visual) (dataReady : Bool) (vm : ViewModel) : Visual × List Event :=
  if dataReady = false then (s, [])
  else
    let stopped := stopAnimation s
    let installed := { stopped.1 with viewModel := vm }
    if vm.settings.autoStart then (playAnimation installed, stopped.2)
    else (installed, stopped.2)

end Extended

namespace Basic

theorem inv_playAnimation {s : Visual} (h : Inv s) : Inv (playAnimation s) := by
  unfold playAnimation
  split
  · exact h
  · simp [Inv]

theorem inv_stopAnimation {s : Visual} (h : Inv s) : Inv (stopAnimation s).1 := by
  unfold stopAnimation
  split
  · exact h
  · simp [Inv]

theorem inv_pauseAnimation {s : Visual} (h : Inv s) : Inv (pauseAnimation s).1 := by
  unfold pauseAnimation
  split
  · exact h
  · simp [Inv]

theorem inv_update {s : Visual} (vm : ViewModel) (h : Inv s) : Inv (update s vm) := by
  simpa [Inv, update] using h

theorem inv_step {s s' : Visual} {evs : List Event} {delta : Int}
    (h : Inv s) (hs : step s delta = some (s', evs)) : Inv s' := by
  unfold step at hs
  split at hs
  · simp only [Option.some.injEq, Prod.mk.injEq] at hs
    exact hs.1 ▸ h
  next hc =>
    split at hs
    · simp only [Option.some.injEq, Prod.mk.injEq] at hs
      exact hs.1 ▸ h
    · dsimp only at hs
      split at hs
      · exact absurd hs (by simp)
      · simp only [Option.some.injEq, Prod.mk.injEq] at hs
        have hpause : s.status = Status.Pause := by
          cases hst : s.status
          · exact absurd (Or.inl hst) hc
          · rfl
          · exact absurd (Or.inr hst) hc
        have htimers : s.timers = [] := h.2 hpause
        exact hs.1 ▸ (by simp [Inv, htimers])

theorem inv_fireAt {s s' : Visual} {evs : List Event} {n : Nat}
    (h : Inv s) (hf : fireAt s n = some (s', evs)) : Inv s' := by
  unfold fireAt at hf
  split at hf
  · exact absurd hf (by simp)
  next t ht =>
    unfold fireTimer at hf
    split at hf
    · exact absurd hf (by simp)
    · simp only [Option.some.injEq, Prod.mk.injEq] at hf
      have hplay : s.status = Status.Play := by
        cases hst : s.status
        · rfl
        · have h2 := h.2 hst
          rw [h2] at ht
          simp at ht
        · have h2 := (h.1 hst).2
          rw [h2] at ht
          simp at ht
      exact hf.1 ▸ (by simp [Inv, hplay])

/-- The invariant holds in every state reachable from a state satisfying
it; in particular it holds in every state reachable from the freshly
constructed visual. -/
theorem inv_reach {s0 s : Visual} (h0 : Inv s0) (hr : Reach s0 s) : Inv s := by
  induction hr with
  | refl => exact h0
  | play _ ih => exact inv_playAnimation ih
  | stop _ ih => exact inv_stopAnimation ih
  | pause _ ih => exact inv_pauseAnimation ih
  | doStep delta _ hs ih => exact inv_step ih hs
  | upd vm _ ih => exact inv_update vm ih
  | fire n _ hf ih => exact inv_fireAt ih hf

end Basic

/-- Sample data points used by the witnesses. -/
def dpA : CategoryDataPoint := ⟨"A", 0⟩

def dpB : CategoryDataPoint := ⟨"B", 1⟩

def dpC : CategoryDataPoint := ⟨"C", 2⟩

def dpD : CategoryDataPoint := ⟨"D", 3⟩

def dpE : CategoryDataPoint := ⟨"E", 4⟩

def dpF : CategoryDataPoint := ⟨"F", 5⟩

/-- Sample basic view model: three items, one-second interval, caption
shown. -/
def sampleVM : Basic.ViewModel := ⟨[dpA, dpB, dpC], ⟨1000, true⟩⟩

/-- Sample basic view model with six items, for multi-position steps. -/
def sampleVM6 : Basic.ViewModel := ⟨[dpA, dpB, dpC, dpD, dpE, dpF], ⟨500, true⟩⟩

/-- Freshly constructed basic visual holding `sampleVM`. -/
def sampleStopped : Basic.Visual := ⟨Status.Stop, 0, sampleVM, []⟩

/-- Basic visual paused at index 1 of `sampleVM`. -/
def samplePaused : Basic.Visual := ⟨Status.Pause, 1, sampleVM, []⟩

/-- Basic visual paused at index 0 of `sampleVM6`. -/
def samplePaused6 : Basic.Visual := ⟨Status.Pause, 0, sampleVM6, []⟩

/-- Basic visual playing `sampleVM` with its three timers pending. -/
def samplePlaying : Basic.Visual :=
  ⟨Status.Play, 0, sampleVM, [⟨0, 0⟩, ⟨1000, 1⟩, ⟨2000, 2⟩]⟩

/-- Sample extended view model: two items, loop off, auto-start off. -/
def sampleVME : Extended.ViewModel := ⟨[dpA, dpB], ⟨false, false, 1000, true⟩⟩

/-- Sample extended view model with loop on. -/
def sampleVMELoop : Extended.ViewModel := ⟨[dpA, dpB], ⟨false, true, 1000, true⟩⟩

/-- Sample extended view model with an empty sequence. -/
def sampleVMEEmpty : Extended.ViewModel := ⟨[], ⟨false, false, 1000, true⟩⟩

/-- Freshly constructed extended visual holding `sampleVME`. -/
def sampleStoppedE : Extended.Visual := ⟨Status.Stop, 0, sampleVME, []⟩

/-- Extended visual playing `sampleVMELoop`, all advance timers fired and
drained, terminal timer about to fire. -/
def sampleLoopE : Extended.Visual := ⟨Status.Play, 1, sampleVMELoop, []⟩

/-- Extended visual holding an empty sequence. -/
def sampleEmptyE : Extended.Visual := ⟨Status.Stop, 0, sampleVMEEmpty, []⟩

/-- Claim C1: in any reachable stopped state, `playAnimation` schedules
exactly one advance timer per index `i` in `[0, N-1]` (no timer was
pending before), the timer for index `i` carrying delay
`i * timeInterval`; and the callback of an advance timer with captured
index `i`, whenever it fires, sets the cursor to `i` and emits the
selection of item `i`'s id followed by item `i`'s caption. -/
theorem playAxis_C1 (s0 s : Basic.Visual) (h0 : Basic.Inv s0) (hr : Basic.Reach s0 s)
    (hst : s.status = Status.Stop) :
    s.timers = [] ∧
    (Basic.playAnimation s).timers =
      (List.range' 0 s.viewModel.dataPoints.length).map
        (fun (i : Nat) =>
          Basic.Timer.mk ((i : Int) * s.viewModel.settings.timeInterval) i) ∧
    (∀ (s' : Basic.Visual) (i : Nat) (dp : CategoryDataPoint),
      s'.viewModel.dataPoints[i]? = some dp →
      s'.viewModel.settings.captionShow = true →
      Basic.fireTimer s' i =
        some ({ s' with lastSelected := i },
          [Event.select dp.selectionId, Event.caption dp.category])) := by
  have hinv := Basic.inv_reach h0 hr
  have hls : s.lastSelected = 0 := (hinv.1 hst).1
  have htm : s.timers = [] := (hinv.1 hst).2
  refine ⟨htm, ?_, ?_⟩
  · simp [Basic.playAnimation, hst, hls, htm]
  · intro s' i dp hdp hshow
    simp [Basic.fireTimer, hdp, Basic.updateCaption, hshow]

/-- Witness for C1 at the freshly constructed three-item visual. -/
theorem playAxis_C1_witness :
    (Basic.playAnimation sampleStopped).timers = [⟨0, 0⟩, ⟨1000, 1⟩, ⟨2000, 2⟩] ∧
    Basic.fireTimer sampleStopped 1 =
      some ({ sampleStopped with lastSelected := 1 },
        [Event.select 1, Event.caption "B"]) := by
  have h := playAxis_C1 sampleStopped sampleStopped (by unfold Basic.Inv; decide) Basic.Reach.refl rfl
  refine ⟨?_, ?_⟩
  · rw [h.2.1]
    decide
  · exact h.2.2 sampleStopped 1 dpB rfl rfl

/-- Claim C2: `playAnimation` is a no-op when already playing; otherwise
it sets the status to `Play` and appends advance timers exactly for the
indices from `startingIndex` (0 when stopped, cursor + 1 when paused) to
`length - 1`, the timer for index `i` carrying delay
`(i - lastSelected) * timeInterval`, staggered relative to the cursor at
call time. -/
theorem playAxis_C2 (s : Basic.Visual) :
    (s.status = Status.Play → Basic.playAnimation s = s) ∧
    (s.status ≠ Status.Play →
      Basic.playAnimation s =
        { s with
            timers := s.timers ++
              (List.range' (if s.status = Status.Stop then 0 else s.lastSelected + 1)
                  (s.viewModel.dataPoints.length -
                    (if s.status = Status.Stop then 0 else s.lastSelected + 1))).map
                (fun (i : Nat) =>
                  Basic.Timer.mk
                    (((i : Int) - (s.lastSelected : Int)) * s.viewModel.settings.timeInterval) i),
            status := Status.Play } ∧
      ∀ t ∈ (Basic.playAnimation s).timers,
        t ∈ s.timers ∨
          ((if s.status = Status.Stop then 0 else s.lastSelected + 1) ≤ t.idx ∧
            t.idx < s.viewModel.dataPoints.length ∧
            t.delay = ((t.idx : Int) - (s.lastSelected : Int)) * s.viewModel.settings.timeInterval)) := by
  constructor
  · intro h
    simp [Basic.playAnimation, h]
  · intro h
    have heq : Basic.playAnimation s =
        { s with
            timers := s.timers ++
              (List.range' (if s.status = Status.Stop then 0 else s.lastSelected + 1)
                  (s.viewModel.dataPoints.length -
                    (if s.status = Status.Stop then 0 else s.lastSelected + 1))).map
                (fun (i : Nat) =>
                  Basic.Timer.mk
                    (((i : Int) - (s.lastSelected : Int)) * s.viewModel.settings.timeInterval) i),
            status := Status.Play } := by
      simp [Basic.playAnimation, h]
    refine ⟨heq, ?_⟩
    intro t ht
    rw [heq] at ht
    simp only at ht
    rcases List.mem_append.1 ht with h1 | h1
    · exact Or.inl h1
    · obtain ⟨i, hi, rfl⟩ := List.mem_map.1 h1
      rw [List.mem_range'_1] at hi
      obtain ⟨hi1, hi2⟩ := hi
      refine Or.inr ⟨hi1, ?_, rfl⟩
      show i < s.viewModel.dataPoints.length
      omega

/-- Witness for C2 at a visual paused at index 1 of three items: resume
schedules only index 2, with delay one interval after the cursor. -/
theorem playAxis_C2_witness :
    Basic.playAnimation samplePaused =
      { samplePaused with timers := [⟨1000, 2⟩], status := Status.Play } := by
  have h := (playAxis_C2 samplePaused).2 (by decide)
  rw [h.1]
  decide

/-- Claim C3: `stopAnimation` is a no-op when stopped; otherwise it drains
every pending timer, emits the empty caption followed by a
selection-clear event, resets the cursor to 0 and sets the status to
`Stop`, and a subsequent `playAnimation` schedules the full sequence from
index 0 with nothing pending from before. -/
theorem playAxis_C3 (s : Basic.Visual) :
    (s.status = Status.Stop → Basic.stopAnimation s = (s, [])) ∧
    (s.status ≠ Status.Stop → s.viewModel.settings.captionShow = true →
      Basic.stopAnimation s =
        ({ s with timers := [], lastSelected := 0, status := Status.Stop },
          [Event.caption "", Event.clearSelection]) ∧
      (Basic.playAnimation (Basic.stopAnimation s).1).timers =
        (List.range' 0 s.viewModel.dataPoints.length).map
          (fun (i : Nat) =>
            Basic.Timer.mk ((i : Int) * s.viewModel.settings.timeInterval) i)) := by
  constructor
  · intro h
    simp [Basic.stopAnimation, h]
  · intro h hshow
    constructor
    · simp [Basic.stopAnimation, h, Basic.updateCaption, hshow]
    · simp [Basic.stopAnimation, h, Basic.playAnimation]

/-- Witness for C3 at the playing three-item visual. -/
theorem playAxis_C3_witness :
    Basic.stopAnimation samplePlaying =
      ({ samplePlaying with timers := [], lastSelected := 0, status := Status.Stop },
        [Event.caption "", Event.clearSelection]) ∧
    (Basic.playAnimation (Basic.stopAnimation samplePlaying).1).timers =
      [⟨0, 0⟩, ⟨1000, 1⟩, ⟨2000, 2⟩] := by
  have h := (playAxis_C3 samplePlaying).2 (by decide) rfl
  refine ⟨h.1, ?_⟩
  rw [h.2]
  decide

/-- Claim C4: in every reachable state the pending-timer set is empty
whenever the status is `Stop` or `Pause`; `playAnimation` only appends to
it, and both cancellation paths (`stopAnimation` when not stopped,
`pauseAnimation` when playing) drain it completely. -/
theorem playAxis_C4 (s0 s : Basic.Visual) (h0 : Basic.Inv s0) (hr : Basic.Reach s0 s) :
    ((s.status = Status.Stop ∨ s.status = Status.Pause) → s.timers = []) ∧
    (s.status ≠ Status.Play →
      (Basic.playAnimation s).timers =
        s.timers ++
          (List.range' (if s.status = Status.Stop then 0 else s.lastSelected + 1)
              (s.viewModel.dataPoints.length -
                (if s.status = Status.Stop then 0 else s.lastSelected + 1))).map
            (fun (i : Nat) =>
              Basic.Timer.mk
                (((i : Int) - (s.lastSelected : Int)) * s.viewModel.settings.timeInterval) i)) ∧
    (s.status ≠ Status.Stop → (Basic.stopAnimation s).1.timers = []) ∧
    (s.status = Status.Play → (Basic.pauseAnimation s).1.timers = []) := by
  have hinv := Basic.inv_reach h0 hr
  refine ⟨?_, ?_, ?_, ?_⟩
  · rintro (h | h)
    · exact (hinv.1 h).2
    · exact hinv.2 h
  · intro h
    simp [Basic.playAnimation, h]
  · intro h
    simp [Basic.stopAnimation, h]
  · intro h
    simp [Basic.pauseAnimation, h]

/-- Witness for C4: after play then pause, and after play then stop, no
timer is pending. -/
theorem playAxis_C4_witness :
    (Basic.pauseAnimation (Basic.playAnimation sampleStopped)).1.timers = [] ∧
    (Basic.stopAnimation (Basic.playAnimation sampleStopped)).1.timers = [] := by
  have h := playAxis_C4 sampleStopped (Basic.pauseAnimation (Basic.playAnimation sampleStopped)).1
    (by unfold Basic.Inv; decide) (Basic.Reach.pause (Basic.Reach.play Basic.Reach.refl))
  have h2 := playAxis_C4 sampleStopped (Basic.playAnimation sampleStopped)
    (by unfold Basic.Inv; decide) (Basic.Reach.play Basic.Reach.refl)
  exact ⟨h.1 (Or.inr (by decide)), h2.2.2.1 (by decide)⟩

/-- Claim C7: `step` is a no-op when playing or stopped, a no-op (no
error, cursor unchanged, no events) when `lastSelected + delta` falls
outside `[0, length - 1]`, and otherwise moves the cursor by `delta`,
synchronously emits the selection and caption of the new item, and sets
the status to `Pause`. -/
theorem playAxis_C7 (s : Basic.Visual) (delta : Int) :
    ((s.status = Status.Play ∨ s.status = Status.Stop) → Basic.step s delta = some (s, [])) ∧
    (s.status = Status.Pause →
      (((s.lastSelected : Int) + delta < 0 ∨
          (s.lastSelected : Int) + delta > (s.viewModel.dataPoints.length : Int) - 1) →
        Basic.step s delta = some (s, [])) ∧
      (∀ dp : CategoryDataPoint,
        0 ≤ (s.lastSelected : Int) + delta →
        (s.lastSelected : Int) + delta ≤ (s.viewModel.dataPoints.length : Int) - 1 →
        s.viewModel.dataPoints[((s.lastSelected : Int) + delta).toNat]? = some dp →
        s.viewModel.settings.captionShow = true →
        Basic.step s delta =
          some ({ s with
              lastSelected := ((s.lastSelected : Int) + delta).toNat,
              status := Status.Pause },
            [Event.select dp.selectionId, Event.caption dp.category]))) := by
  constructor
  · intro h
    unfold Basic.step
    rw [if_pos h]
  · intro hp
    constructor
    · intro hb
      unfold Basic.step
      rw [if_neg (by simp [hp]), if_pos hb]
    · intro dp h0 h1 hdp hshow
      unfold Basic.step
      rw [if_neg (by simp [hp]), if_neg (by omega)]
      dsimp only
      rw [hdp]
      simp [Basic.updateCaption, hshow]

/-- Witness for C7: out-of-bounds step and playing-state step are no-ops;
an in-bounds step from index 1 moves to index 2 and emits its events. -/
theorem playAxis_C7_witness :
    Basic.step samplePaused 2 = some (samplePaused, []) ∧
    Basic.step samplePlaying 1 = some (samplePlaying, []) ∧
    Basic.step samplePaused 1 =
      some ({ samplePaused with lastSelected := 2, status := Status.Pause },
        [Event.select 2, Event.caption "C"]) := by
  refine ⟨?_, ?_, ?_⟩
  · exact ((playAxis_C7 samplePaused 2).2 rfl).1 (by decide)
  · exact (playAxis_C7 samplePlaying 1).1 (Or.inl rfl)
  · exact ((playAxis_C7 samplePaused 1).2 rfl).2 dpC (by decide) (by decide) (by decide) rfl

/-- Claim C8: `pauseAnimation` is a no-op when paused or stopped;
otherwise (playing) it drains every pending timer so that no timer can
fire afterwards, keeps the cursor, emits no events, and sets the status
to `Pause`. -/
theorem playAxis_C8 (s : Basic.Visual) :
    ((s.status = Status.Pause ∨ s.status = Status.Stop) → Basic.pauseAnimation s = (s, [])) ∧
    (s.status = Status.Play →
      Basic.pauseAnimation s = ({ s with timers := [], status := Status.Pause }, []) ∧
      ∀ n : Nat, Basic.fireAt (Basic.pauseAnimation s).1 n = none) := by
  constructor
  · intro h
    unfold Basic.pauseAnimation
    rw [if_pos h]
  · intro h
    have heq : Basic.pauseAnimation s = ({ s with timers := [], status := Status.Pause }, []) := by
      unfold Basic.pauseAnimation
      rw [if_neg (by simp [h])]
    refine ⟨heq, ?_⟩
    intro n
    rw [heq]
    simp [Basic.fireAt]

/-- Witness for C8 at the paused and the playing three-item visuals. -/
theorem playAxis_C8_witness :
    Basic.pauseAnimation samplePaused = (samplePaused, []) ∧
    Basic.pauseAnimation samplePlaying =
      ({ samplePlaying with timers := [], status := Status.Pause }, []) ∧
    Basic.fireAt (Basic.pauseAnimation samplePlaying).1 0 = none := by
  refine ⟨?_, ?_, ?_⟩
  · exact (playAxis_C8 samplePaused).1 (Or.inl rfl)
  · exact ((playAxis_C8 samplePlaying).2 rfl).1
  · exact ((playAxis_C8 samplePlaying).2 rfl).2 0

/-- Claim C10: `step` places no restriction on `delta`: for any integer
delta, from a paused state with `lastSelected + delta` inside
`[0, length - 1]`, the cursor moves by `delta` in a single call and the
selection and caption events of the target item are emitted. -/
theorem playAxis_C10 (s : Basic.Visual) (delta : Int) (dp : CategoryDataPoint)
    (hp : s.status = Status.Pause)
    (h0 : 0 ≤ (s.lastSelected : Int) + delta)
    (h1 : (s.lastSelected : Int) + delta ≤ (s.viewModel.dataPoints.length : Int) - 1)
    (hdp : s.viewModel.dataPoints[((s.lastSelected : Int) + delta).toNat]? = some dp)
    (hshow : s.viewModel.settings.captionShow = true) :
    Basic.step s delta =
      some ({ s with
          lastSelected := ((s.lastSelected : Int) + delta).toNat,
          status := Status.Pause },
        [Event.select dp.selectionId, Event.caption dp.category]) := by
  unfold Basic.step
  rw [if_neg (by simp [hp]), if_neg (by omega)]
  dsimp only
  rw [hdp]
  simp [Basic.updateCaption, hshow]

/-- Witness for C10: a step of +5 from index 0 of six items lands on
index 5, and a step of -3 from index 5 lands on index 2, each in a single
call with the target item's events. -/
theorem playAxis_C10_witness :
    Basic.step samplePaused6 5 =
      some ({ samplePaused6 with lastSelected := 5, status := Status.Pause },
        [Event.select 5, Event.caption "F"]) ∧
    Basic.step { samplePaused6 with lastSelected := 5 } (-3) =
      some ({ samplePaused6 with lastSelected := 2, status := Status.Pause },
        [Event.select 2, Event.caption "C"]) := by
  constructor
  · exact playAxis_C10 samplePaused6 5 dpF rfl (by decide) (by decide) (by decide) rfl
  · exact playAxis_C10 { samplePaused6 with lastSelected := 5 } (-3) dpC rfl
      (by decide) (by decide) (by decide) rfl

/-- Claim C5: in the extended variant, `playAnimation` (when it acts)
schedules exactly one terminal timer after the advance timers, firing
after `(length - lastSelected) * timeInterval`; the terminal callback,
when it fires, checks the loop setting: with loop on it resets the status
to `Stop` and the cursor to 0 and recursively invokes `playAnimation`,
which schedules the whole sequence (and a fresh terminal timer) again;
with loop off it invokes `stopAnimation`.  An explicit pause or stop
while playing drains every pending timer, ending the cycle. -/
theorem playAxis_C5 (s : Extended.Visual) (hnp : s.status ≠ Status.Play) :
    ((Extended.playAnimation s).timers =
      s.timers ++
        (List.range' (if s.status = Status.Stop then 0 else s.lastSelected + 1)
            (s.viewModel.dataPoints.length -
              (if s.status = Status.Stop then 0 else s.lastSelected + 1))).map
          (fun (i : Nat) =>
            Extended.Timer.mk
              (((i : Int) - (s.lastSelected : Int)) * s.viewModel.settings.timeInterval)
              (Extended.TimerKind.advance i)) ++
        [Extended.Timer.mk
          (((s.viewModel.dataPoints.length : Int) - (s.lastSelected : Int)) *
            s.viewModel.settings.timeInterval)
          Extended.TimerKind.terminal]) ∧
    (∀ s' : Extended.Visual,
      (s'.viewModel.settings.loop = true →
        Extended.fireTimer s' Extended.TimerKind.terminal =
          some (Extended.playAnimation { s' with status := Status.Stop, lastSelected := 0 },
            []) ∧
        (Extended.playAnimation { s' with status := Status.Stop, lastSelected := 0 }).timers =
          s'.timers ++
            (List.range' 0 s'.viewModel.dataPoints.length).map
              (fun (i : Nat) =>
                Extended.Timer.mk ((i : Int) * s'.viewModel.settings.timeInterval)
                  (Extended.TimerKind.advance i)) ++
            [Extended.Timer.mk
              ((s'.viewModel.dataPoints.length : Int) * s'.viewModel.settings.timeInterval)
              Extended.TimerKind.terminal] ∧
        (Extended.playAnimation { s' with status := Status.Stop, lastSelected := 0 }).status =
          Status.Play) ∧
      (s'.viewModel.settings.loop = false →
        Extended.fireTimer s' Extended.TimerKind.terminal =
          some (Extended.stopAnimation s'))) ∧
    (∀ p : Extended.Visual, p.status = Status.Play →
      (Extended.pauseAnimation p).1.timers = [] ∧
      (Extended.stopAnimation p).1.timers = []) := by
  refine ⟨?_, ?_, ?_⟩
  · simp [Extended.playAnimation, hnp]
  · intro s'
    constructor
    · intro hl
      refine ⟨?_, ?_, ?_⟩
      · simp [Extended.fireTimer, hl]
      · simp [Extended.playAnimation]
      · simp [Extended.playAnimation]
    · intro hl
      simp [Extended.fireTimer, hl]
  · intro p hp
    constructor
    · simp [Extended.pauseAnimation, hp]
    · simp [Extended.stopAnimation, hp]

/-- Witness for C5: from the stopped two-item extended visual, play
schedules two advances and one terminal; firing the terminal of the
looping visual (all advances drained) reschedules the whole sequence;
pausing the playing visual drains all timers. -/
theorem playAxis_C5_witness :
    (Extended.playAnimation sampleStoppedE).timers =
      [⟨0, Extended.TimerKind.advance 0⟩, ⟨1000, Extended.TimerKind.advance 1⟩,
        ⟨2000, Extended.TimerKind.terminal⟩] ∧
    Extended.fireTimer sampleLoopE Extended.TimerKind.terminal =
      some (Extended.playAnimation { sampleLoopE with status := Status.Stop, lastSelected := 0 },
        []) ∧
    (Extended.playAnimation { sampleLoopE with status := Status.Stop, lastSelected := 0 }).timers =
      [⟨0, Extended.TimerKind.advance 0⟩, ⟨1000, Extended.TimerKind.advance 1⟩,
        ⟨2000, Extended.TimerKind.terminal⟩] ∧
    (Extended.pauseAnimation (Extended.playAnimation sampleStoppedE)).1.timers = [] := by
  have h := playAxis_C5 sampleStoppedE (by decide)
  have h2 := (h.2.1 sampleLoopE).1 rfl
  refine ⟨?_, h2.1, ?_, ?_⟩
  · rw [h.1]
    decide
  · rw [h2.2.1]
    decide
  · exact (h.2.2 (Extended.playAnimation sampleStoppedE) (by decide)).1

/-- Claim C6: on an empty sequence every operation is total and
degenerates safely: `playAnimation` schedules no advance timer and only
the terminal timer, whose delay is 0, and firing that terminal timer
(loop off) invokes `stopAnimation`; `step` is a no-op for every delta. -/
theorem playAxis_C6 (s : Extended.Visual)
    (hemp : s.viewModel.dataPoints = []) (hls : s.lastSelected = 0)
    (hnp : s.status ≠ Status.Play) (hloop : s.viewModel.settings.loop = false) :
    Extended.playAnimation s =
      { s with
        timers := s.timers ++ [Extended.Timer.mk 0 Extended.TimerKind.terminal],
        status := Status.Play } ∧
    (∀ delta : Int, Extended.step s delta = some (s, [])) ∧
    Extended.fireTimer (Extended.playAnimation s) Extended.TimerKind.terminal =
      some (Extended.stopAnimation (Extended.playAnimation s)) ∧
    (Extended.stopAnimation (Extended.playAnimation s)).1.status = Status.Stop ∧
    (Extended.stopAnimation (Extended.playAnimation s)).1.timers = [] := by
  have hplay : Extended.playAnimation s =
      { s with
        timers := s.timers ++ [Extended.Timer.mk 0 Extended.TimerKind.terminal],
        status := Status.Play } := by
    simp [Extended.playAnimation, hnp, hemp, hls]
  have hloop2 : (Extended.playAnimation s).viewModel.settings.loop = false := by
    rw [hplay]
    exact hloop
  have hst : (Extended.playAnimation s).status = Status.Play := by
    rw [hplay]
  refine ⟨hplay, ?_, ?_, ?_, ?_⟩
  · intro delta
    unfold Extended.step
    by_cases h1 : s.status = Status.Play ∨ s.status = Status.Stop
    · rw [if_pos h1]
    · rw [if_neg h1, if_pos (by rw [hls, hemp]; simp only [List.length_nil]; omega)]
  · simp [Extended.fireTimer, hloop2]
  · simp [Extended.stopAnimation, hst]
  · simp [Extended.stopAnimation, hst]

/-- Witness for C6 at the stopped empty-sequence extended visual. -/
theorem playAxis_C6_witness :
    Extended.playAnimation sampleEmptyE =
      { sampleEmptyE with
        timers := [⟨0, Extended.TimerKind.terminal⟩],
        status := Status.Play } ∧
    Extended.step sampleEmptyE 1 = some (sampleEmptyE, []) ∧
    Extended.step sampleEmptyE (-1) = some (sampleEmptyE, []) ∧
    (Extended.stopAnimation (Extended.playAnimation sampleEmptyE)).1.timers = [] := by
  have h := playAxis_C6 sampleEmptyE rfl rfl (by decide) rfl
  refine ⟨?_, h.2.1 1, h.2.1 (-1), h.2.2.2.2⟩
  rw [h.1]
  decide

/-- Claim C9: the extended `update` with ready data first tears down the
running session with `stopAnimation` (which, when the visual was not
already stopped, drains the timers and resets cursor and status), then
installs the new view model, then plays immediately exactly when the new
`autoStart` setting is on; the basic `update` installs the new view model
and leaves status, cursor and pending timers untouched. -/
theorem playAxis_C9 (sE : Extended.Visual) (vmE : Extended.ViewModel)
    (sB : Basic.Visual) (vmB : Basic.ViewModel) :
    (Extended.update sE true vmE =
      (if vmE.settings.autoStart = true then
        Extended.playAnimation { (Extended.stopAnimation sE).1 with viewModel := vmE }
      else { (Extended.stopAnimation sE).1 with viewModel := vmE },
        (Extended.stopAnimation sE).2)) ∧
    (sE.status ≠ Status.Stop →
      (Extended.stopAnimation sE).1.timers = [] ∧
      (Extended.stopAnimation sE).1.lastSelected = 0 ∧
      (Extended.stopAnimation sE).1.status = Status.Stop) ∧
    (Basic.update sB vmB).status = sB.status ∧
    (Basic.update sB vmB).lastSelected = sB.lastSelected ∧
    (Basic.update sB vmB).timers = sB.timers ∧
    (Basic.update sB vmB).viewModel = vmB := by
  refine ⟨?_, ?_, rfl, rfl, rfl, rfl⟩
  · cases ha : vmE.settings.autoStart <;> simp [Extended.update, ha]
  · intro h
    simp [Extended.stopAnimation, h]

/-- Witness for C9: updating the playing looping extended visual with the
non-auto-starting view model stops it first; the basic update leaves the
playing state and timers alone. -/
theorem playAxis_C9_witness :
    Extended.update sampleLoopE true sampleVME =
      ({ (Extended.stopAnimation sampleLoopE).1 with viewModel := sampleVME },
        (Extended.stopAnimation sampleLoopE).2) ∧
    (Extended.stopAnimation sampleLoopE).1.timers = [] ∧
    (Basic.update samplePlaying sampleVM6).timers = samplePlaying.timers ∧
    (Basic.update samplePlaying sampleVM6).status = samplePlaying.status := by
  have h := playAxis_C9 sampleLoopE sampleVME samplePlaying sampleVM6
  refine ⟨?_, (h.2.1 (by decide)).1, h.2.2.2.2.1, h.2.2.1⟩
  rw [h.1]
  decide
